import Mathlib

/-!
Verification of the tcpee TCP reverse-proxy engine (proxy.go).

Shallow embedding of the proxy engine: the copy pump (`copyConn`), traffic
accounting (`addBytesIn` / `addBytesOut`), the PROXY-v1 header emitter inside
`serve`, the accept-loop error classifier, the idle-deadline setter
(`timeoutFunc`), the one-shot `init` / per-call `startStatsTimer` split, the
`Close` drain, and the session lifecycle counters.
-/

namespace Tcpee

/-! ### Copy pump (`copyConn`) -/

/-- Result classification of one `dst.ReadFrom(src)` call, mirroring the
branches of `copyConn`: `success` is a nil error, `eof` is `io.EOF`,
`connClosed` is `net.ErrClosed`, `timeout` is a `net.Error` whose `Timeout()`
is true, and `failure e` is any other error (tagged by an opaque code). -/
inductive IOResult where
  | success
  | eof
  | connClosed
  | timeout
  | failure (code : Nat)
deriving DecidableEq, Repr

/-- Outcome of running the `copyConn` loop on a trace of iteration results:
`counted` is the total added to the direction's byte counter, `sentErr` the
error pushed onto the completion channel (if any), and `terminated` whether
the loop broke out (false when the trace ran out while the loop would still
continue, i.e. the pump is still blocked in `ReadFrom`). -/
structure PumpResult where
  counted : Nat
  sentErr : Option Nat
  terminated : Bool
deriving DecidableEq, Repr

/-- The `copyConn` loop body, driven by a trace of `(n, err)` pairs returned
by successive `dst.ReadFrom(src)` calls. Mirrors the source exactly: a nil /
`io.EOF` / `net.ErrClosed` result adds `n` to the counter and breaks; a
timeout with `n < 1` breaks; a timeout with `n ≥ 1` adds `n` and continues;
any other error is sent on the channel and breaks. -/
def runPump : List (Nat × IOResult) → PumpResult
  | [] => ⟨0, none, false⟩
  | (n, r) :: rest =>
    match r with
    | .success => ⟨n, none, true⟩
    | .eof => ⟨n, none, true⟩
    | .connClosed => ⟨n, none, true⟩
    | .timeout =>
      if n < 1 then ⟨0, none, true⟩
      else
        let p := runPump rest
        ⟨n + p.counted, p.sentErr, p.terminated⟩
    | .failure e => ⟨0, some e, true⟩

/-- Full effect of a `copyConn` call: the loop outcome plus the deferred
cleanup (`close(errChan)` and `dst.Close()`), which runs exactly when the
function exits, i.e. when the loop terminated. -/
structure PumpEffects where
  result : PumpResult
  dstClosed : Bool
  chanClosed : Bool
deriving DecidableEq, Repr

/-- `copyConn` as a whole: run the loop, then the deferred cleanup closes the
destination socket and the completion channel on every exit path. -/
def copyConn (tr : List (Nat × IOResult)) : PumpEffects :=
  let p := runPump tr
  ⟨p, p.terminated, p.terminated⟩

/-- Total number of bytes that actually crossed the pump over the iterations
the loop consumed: every `ReadFrom` call's `n`, including an iteration that
ends in a non-timeout error (whose bytes `copyConn` does NOT record). -/
def crossedBytes : List (Nat × IOResult) → Nat
  | [] => 0
  | (n, r) :: rest =>
    match r with
    | .timeout => if n < 1 then 0 else n + crossedBytes rest
    | _ => n

/-! ### Traffic accounting (`addBytesIn` / `addBytesOut`) -/

/-- Modulus of the `uint64` counters `bytesIn` / `bytesOut`. -/
def u64Mod : Nat := 2 ^ 64

/-- The two per-instance traffic counters (`uint64` fields of `TCPProxy`). -/
structure Stats where
  bytesIn : Nat
  bytesOut : Nat
deriving DecidableEq, Repr

/-- `addBytesIn`: `proxy.bytesIn += uint64(n)` under the stats mutex. -/
def addBytesIn (s : Stats) (n : Nat) : Stats :=
  { s with bytesIn := (s.bytesIn + n) % u64Mod }

/-- `addBytesOut`: `proxy.bytesOut += uint64(n)` under the stats mutex. -/
def addBytesOut (s : Stats) (n : Nat) : Stats :=
  { s with bytesOut := (s.bytesOut + n) % u64Mod }

/-- The `if isClientToServer { proxy.addBytesIn(n) } else { proxy.addBytesOut(n) }`
blocks of `copyConn`. -/
def addDir (isClientToServer : Bool) (s : Stats) (n : Nat) : Stats :=
  if isClientToServer then addBytesIn s n else addBytesOut s n

/-- Effect of one `copyConn` run on the traffic counters, following the same
branch structure as `runPump`: clean termination and timeout-with-progress
iterations record their `n`; an idle timeout (`n < 1`) and the generic error
branch record nothing. -/
def pumpStats (isClientToServer : Bool) : List (Nat × IOResult) → Stats → Stats
  | [], s => s
  | (n, r) :: rest, s =>
    match r with
    | .success => addDir isClientToServer s n
    | .eof => addDir isClientToServer s n
    | .connClosed => addDir isClientToServer s n
    | .timeout =>
      if n < 1 then s
      else pumpStats isClientToServer rest (addDir isClientToServer s n)
    | .failure _ => s

/-! ### PROXY-v1 header emitter (in `serve`) -/

/-- `isZeros`: is every byte of the slice zero? -/
def isZeros (ip : List Nat) : Bool :=
  ip.all (· == 0)

/-- `isIPv4`: the IP is 4 bytes long, or 16 bytes long with the first 10
bytes zero and bytes 10 and 11 equal to `0xff`. -/
def isIPv4 (ip : List Nat) : Bool :=
  (ip.length == 4) ||
    (ip.length == 16 && isZeros (ip.take 10) && (ip.getD 10 0 == 0xff)
      && (ip.getD 11 0 == 0xff))

/-- The addresses available to one `serve` call: the front-end peer address
`sTCPAddr` (raw bytes plus its runtime rendering `IP.String()`), the
front-end listen port the client connected to (present on the listener but
never read by `serve`), and the back-end connection's remote address
`dTCPAddr` (rendering plus port). -/
structure SessionAddrs where
  frontPeerIP : List Nat
  frontPeerIPStr : String
  frontPeerPort : Nat
  frontListenPort : Nat
  backRemoteIPStr : String
  backRemotePort : Nat

/-- The header bytes `serve` builds when `ProxyProto` is set:
`PROXY `, then `TCP4 ` or `TCP6 ` by `isIPv4(sTCPAddr.IP)`, then
`srcIP ⬝ ' ' ⬝ dstIP ⬝ ' ' ⬝ sTCPAddr.Port ⬝ ' ' ⬝ dstPort ⬝ CRLF`, where
`dstIP`/`dstPort` come from `dTCPConn.RemoteAddr()`. -/
def buildProxyHeader (s : SessionAddrs) : String :=
  "PROXY " ++ (if isIPv4 s.frontPeerIP then "TCP4 " else "TCP6 ")
    ++ s.frontPeerIPStr ++ " " ++ s.backRemoteIPStr ++ " "
    ++ Nat.repr s.frontPeerPort ++ " " ++ Nat.repr s.backRemotePort
    ++ "\r\n"

/-- Everything `serve` writes to the back-end socket before any forwarded
data: exactly the header line when `ProxyProto` is set, nothing otherwise
(the pumps are only launched after the header write). -/
def backendPrelude (proxyProto : Bool) (s : SessionAddrs) : List String :=
  if proxyProto then [buildProxyHeader s] else []

/-- Dotted-decimal rendering of a 4-byte IP, as Go's `net.IP.String()`
produces for IPv4 addresses. -/
def ip4String (a b c d : Nat) : String :=
  Nat.repr a ++ "." ++ Nat.repr b ++ "." ++ Nat.repr c ++ "." ++ Nat.repr d

/-- The addresses of the spec's concrete scenario: an IPv4 loopback client at
port `A` connected to front-end listen port `B`, proxied to a loopback
back-end whose remote port is `C`. -/
def loopbackSession (A B C : Nat) : SessionAddrs :=
  ⟨[127, 0, 0, 1], ip4String 127 0 0 1, A, B, ip4String 127 0 0 1, C⟩

/-! ### Idle deadline setter (`timeoutFunc`) and its wiring in `serve` -/

/-- Behaviour of one invocation of the closure returned by `timeoutFunc(d, fn)`,
durations and instants in nanoseconds: when `d < 1` the closure is `func() {}`
and `fn` is never called (`none`); otherwise the invocation calls
`fn(time.Now().Add(d))` (`some (now + d)`). -/
def timeoutFunc (d : Int) (now : Int) : Option Int :=
  if d < 1 then none else some (now + d)

/-- Which deadline a setter closure targets. Both closures built by `serve`
act on the front-end socket `sTCPConn`. -/
inductive DeadlineTarget where
  | frontRead
  | frontWrite
  | backRead
  | backWrite
deriving DecidableEq, Repr

/-- The two deadline-setter closures `serve` prepares:
`timeoutFunc(proxy.ClientTimeout, sTCPConn.SetReadDeadline)` and
`timeoutFunc(proxy.ServerTimeout, sTCPConn.SetWriteDeadline)`, as
(target, captured duration) pairs in construction order. -/
def serveTimeoutSetters (clientTimeout serverTimeout : Int) :
    List (DeadlineTarget × Int) :=
  [(.frontRead, clientTimeout), (.frontWrite, serverTimeout)]

/-! ### Accept-loop error classification -/

/-- Shape of an error returned by `ln.Accept()`: whether it implements
`net.Error` and reports `Temporary()`, whether it `errors.Is` `io.EOF`, and
an opaque identity. -/
structure AcceptError where
  isNet : Bool
  temporary : Bool
  isEOF : Bool
  id : Nat
deriving DecidableEq, Repr

/-- What one accept-loop iteration does with an accept error. -/
inductive AcceptAction where
  | logSleepRetry
  | returnClean
  | logReturnErr (e : AcceptError)
deriving DecidableEq, Repr

/-- The accept-loop error branches, in source order: a temporary `net.Error`
is logged, slept on, and retried; otherwise an `io.EOF` makes the loop return
nil; anything else is logged and returned. -/
def classifyAccept (e : AcceptError) : AcceptAction :=
  if e.isNet && e.temporary then .logSleepRetry
  else if e.isEOF then .returnClean
  else .logReturnErr e

/-- The backoff before retrying a temporary accept error:
`time.Sleep(time.Second)`, in seconds. -/
def acceptRetrySleepSeconds : Nat := 1

/-- Effects the accept loop performs on a successful accept before the next
iteration: `proxy.serveWg.Add(1)`, `atomic.AddInt64(&proxy.open, 1)`, and
`go proxy.serve(conn, dst)`. -/
inductive AcceptEffect where
  | wgAdd
  | incOpen
  | spawnServe
deriving DecidableEq, Repr

/-- The accept loop's per-connection effect sequence, in source order. -/
def acceptSuccessEffects : List AcceptEffect :=
  [.wgAdd, .incOpen, .spawnServe]

/-! ### Session driver (`serve`) exit paths -/

/-- How one `serve` call ends: the back-end dial failed; the PROXY header
write failed; one of the two completion channels delivered (with the value
received, `none` for a closed-channel zero value); the base context was
cancelled; or the body panicked (only the deferred cleanup runs). -/
inductive ServeExit where
  | dialFail
  | headerWriteFail
  | pumpInDone (e : Option Nat)
  | pumpOutDone (e : Option Nat)
  | ctxCancelled
  | panicked
deriving DecidableEq, Repr

/-- Observable events of one `serve` call. -/
inductive SEvent where
  | logDialError
  | logProxying
  | logInputError
  | logOutputError
  | writeHeaderAttempt
  | spawnPumps
  | closeBack
  | closeFront
  | decOpen
  | wgDone
deriving DecidableEq, Repr

/-- Event sequence of one `serve` call per exit path, translated from the
source: the deferred `atomic.AddInt64(&proxy.open, -1)` and
`proxy.serveWg.Done()` run last on every path; the header write happens only
when `ProxyProto` is set; the select's cancellation branch closes
`dTCPConn` then `sTCPConn`; the completion branches log only a non-nil
received error. `serve` itself closes no socket on the other paths. -/
def serveEvents (proxyProto : Bool) : ServeExit → List SEvent
  | .dialFail => [.logDialError, .decOpen, .wgDone]
  | .headerWriteFail =>
    [.logProxying, .writeHeaderAttempt, .logOutputError, .decOpen, .wgDone]
  | .pumpInDone e =>
    [.logProxying] ++ (if proxyProto then [.writeHeaderAttempt] else [])
      ++ [.spawnPumps]
      ++ (match e with | some _ => [.logInputError] | none => [])
      ++ [.decOpen, .wgDone]
  | .pumpOutDone e =>
    [.logProxying] ++ (if proxyProto then [.writeHeaderAttempt] else [])
      ++ [.spawnPumps]
      ++ (match e with | some _ => [.logOutputError] | none => [])
      ++ [.decOpen, .wgDone]
  | .ctxCancelled =>
    [.logProxying] ++ (if proxyProto then [.writeHeaderAttempt] else [])
      ++ [.spawnPumps, .closeBack, .closeFront, .decOpen, .wgDone]
  | .panicked => [.decOpen, .wgDone]

/-- Whether the two copy pumps were launched on this exit path (they are
launched just before the select, so exactly on the pump-completion and
cancellation paths). -/
def pumpsSpawned : ServeExit → Bool
  | .pumpInDone _ => true
  | .pumpOutDone _ => true
  | .ctxCancelled => true
  | _ => false

/-- Total number of `Close()` calls the session issues on the front-end
socket over its whole life: those in `serve`'s own events, plus the deferred
`dst.Close()` of the back→front pump (whose destination is the front-end
socket) once it eventually exits — the pumps exist only when spawned, and
each pump's deferred close runs exactly once. -/
def frontCloseCount (proxyProto : Bool) (x : ServeExit) : Nat :=
  (serveEvents proxyProto x).count .closeFront + (if pumpsSpawned x then 1 else 0)

/-- Total number of `Close()` calls the session issues on the back-end
socket: `serve`'s own events plus the deferred close of the front→back pump
(whose destination is the back-end socket). -/
def backCloseCount (proxyProto : Bool) (x : ServeExit) : Nat :=
  (serveEvents proxyProto x).count .closeBack + (if pumpsSpawned x then 1 else 0)

/-! ### Session lifecycle and the `open` counter -/

/-- Lifecycle events of sessions, tagged by a session identifier: `start s`
is the accept loop's `atomic.AddInt64(&proxy.open, 1)` (with `serveWg.Add(1)`)
for session `s`; `finish s` is session `s`'s deferred
`atomic.AddInt64(&proxy.open, -1)` (with `serveWg.Done()`). -/
inductive SessEvent where
  | start (sid : Nat)
  | finish (sid : Nat)
deriving DecidableEq, Repr

/-- Contribution of one lifecycle event to the signed `open` counter. -/
def openDelta : SessEvent → Int
  | .start _ => 1
  | .finish _ => -1

/-- Value of `proxy.open` after a trace of lifecycle events, starting at 0. -/
def openAfter (tr : List SessEvent) : Int :=
  (tr.map openDelta).sum

/-- Session ids whose increment appears in the trace. -/
def started (tr : List SessEvent) : List Nat :=
  tr.filterMap fun e => match e with | .start s => some s | .finish _ => none

/-- Session ids whose decrement appears in the trace. -/
def finished (tr : List SessEvent) : List Nat :=
  tr.filterMap fun e => match e with | .finish s => some s | .start _ => none

/-- Number of sessions that have incremented but not yet decremented. -/
def numOpen (tr : List SessEvent) : Nat :=
  ((started tr).filter fun s => decide (s ∉ finished tr)).length

/-- Well-formedness of a lifecycle trace, holding of every interleaving the
program can produce: each session increments at most once and decrements at
most once, and a session's decrement (at the end of its `serve`) can only
appear after its increment (in the accept loop, before `go serve`). -/
structure WFTrace (tr : List SessEvent) : Prop where
  nodupS : (started tr).Nodup
  nodupF : (finished tr).Nodup
  prec : ∀ pre, pre <+: tr → ∀ s, s ∈ finished pre → s ∈ started pre

/-! ### `Close` and the drain barrier -/

/-- Shutdown-relevant state of one `TCPProxy`: whether the base context has
been cancelled, and the `serveWg` counter of live serve routines. -/
structure DrainState where
  cancelled : Bool
  live : Nat
deriving DecidableEq, Repr

/-- `proxy.cancel()`: cancelling the base context; cancelling an already
cancelled context is a no-op. -/
def cancelCtx (s : DrainState) : DrainState :=
  { s with cancelled := true }

/-- One serve routine finishing: its deferred `proxy.serveWg.Done()`. -/
def sessionDone (s : DrainState) : DrainState :=
  { s with live := s.live - 1 }

/-- `Close()` as executed against an environment in which `k` serve routines
finish while it waits: `proxy.cancel()` runs first, then `serveWg.Wait()`
returns exactly when the live counter has reached zero — `some` final state
if it does after those `k` completions, `none` meaning `Close` is still
blocked in `Wait`. -/
def closeExec (s : DrainState) (k : Nat) : Option DrainState :=
  let s' := sessionDone^[k] (cancelCtx s)
  if s'.live = 0 then some s' else none

/-! ### One-shot init vs per-call stats timer -/

/-- Initialisation-relevant state of one `TCPProxy`: how many times the
`doOnce.Do` body ran (it builds the default name, `lnCfg`, `dialer`, the
header buffer pool `ppool`, and the base context / cancel token), and how
many statistics timer goroutines have been started. -/
structure InstState where
  initCount : Nat
  statsTasks : Nat
deriving DecidableEq, Repr

/-- `proxy.init()`: `doOnce.Do` runs its body only the first time. -/
def initOnce (s : InstState) : InstState :=
  if s.initCount = 0 then { s with initCount := 1 } else s

/-- `proxy.startStatsTimer()`: creates a fresh timer and starts a new
goroutine looping on it — once per call, unconditionally. -/
def startStatsTimer (s : InstState) : InstState :=
  { s with statsTasks := s.statsTasks + 1 }

/-- The initialisation prefix of every `Proxy(src, dst)` call, in source
order: `proxy.init()` then `proxy.startStatsTimer()`. -/
def proxyCallInit (s : InstState) : InstState :=
  startStatsTimer (initOnce s)

/-- A constructed-inert instance: the `doOnce` body has not run and no stats
goroutine exists. -/
def inertInst : InstState := ⟨0, 0⟩

/-! ### `Close` before initialisation -/

/-- The one field of `TCPProxy` that `Close` reads: the `cancel` function,
which is the zero value `nil` until the `doOnce` body assigns it from
`context.WithCancel`. -/
structure RawTCPProxy where
  cancelAssigned : Bool
deriving DecidableEq, Repr

/-- A `TCPProxy` as constructed, before any call ran `init`. -/
def inertProxy : RawTCPProxy := ⟨false⟩

/-- The `doOnce` body's assignment `proxy.baseCtx, proxy.cancel = ...`. -/
def initAssign (_ : RawTCPProxy) : RawTCPProxy := ⟨true⟩

/-- `Close()` on a raw instance: it immediately calls `proxy.cancel()`;
calling a nil function value panics, otherwise `Close` proceeds to
`serveWg.Wait()` and returns. -/
def closeRaw (p : RawTCPProxy) : Except String Unit :=
  if p.cancelAssigned then .ok () else .error "runtime error: invalid memory address or nil pointer dereference"

/-! ### Theorems -/

/-- C2: classification of every `copyConn` iteration: a nil / end-of-stream /
connection-closed result adds `n` to the direction's counter and exits the
loop cleanly with nothing sent on the completion channel; a network timeout
with `n = 0` exits without sending; a network timeout with `n > 0` adds `n`
to the counter and continues the loop; any other error is sent on the
completion channel and exits; and on every exit path the deferred cleanup
closes the destination socket and the completion channel. -/
theorem copyConn_iteration_behaviour :
    (∀ (n : Nat) (rest : List (Nat × IOResult)) (e : Nat),
      runPump ((n, .success) :: rest) = ⟨n, none, true⟩ ∧
      runPump ((n, .eof) :: rest) = ⟨n, none, true⟩ ∧
      runPump ((n, .connClosed) :: rest) = ⟨n, none, true⟩ ∧
      runPump ((0, .timeout) :: rest) = ⟨0, none, true⟩ ∧
      (0 < n → runPump ((n, .timeout) :: rest) =
        ⟨n + (runPump rest).counted, (runPump rest).sentErr,
          (runPump rest).terminated⟩) ∧
      runPump ((n, .failure e) :: rest) = ⟨0, some e, true⟩) ∧
    (∀ (c2s : Bool) (n : Nat) (rest : List (Nat × IOResult)) (e : Nat) (s : Stats),
      pumpStats c2s ((n, .success) :: rest) s = addDir c2s s n ∧
      pumpStats c2s ((n, .eof) :: rest) s = addDir c2s s n ∧
      pumpStats c2s ((n, .connClosed) :: rest) s = addDir c2s s n ∧
      (0 < n → pumpStats c2s ((n, .timeout) :: rest) s =
        pumpStats c2s rest (addDir c2s s n)) ∧
      pumpStats c2s ((0, .timeout) :: rest) s = s ∧
      pumpStats c2s ((n, .failure e) :: rest) s = s) ∧
    (∀ tr : List (Nat × IOResult), (runPump tr).terminated = true →
      (copyConn tr).dstClosed = true ∧ (copyConn tr).chanClosed = true) := by
  refine ⟨fun n rest e => ⟨rfl, rfl, rfl, by simp [runPump], ?_, rfl⟩,
    fun c2s n rest e s => ⟨rfl, rfl, rfl, ?_, by simp [pumpStats], rfl⟩,
    fun tr h => ⟨?_, ?_⟩⟩
  · intro hn
    have : ¬ n < 1 := by omega
    simp [runPump, this]
  · intro hn
    have : ¬ n < 1 := by omega
    simp [pumpStats, this]
  · simp [copyConn, h]
  · simp [copyConn, h]

/-- Witness for C2 at a concrete trace: a timeout iteration with progress
continues into a clean end-of-stream iteration, and the cleanup closes
socket and channel. -/
theorem copyConn_iteration_behaviour_witness :
    runPump ((3, .timeout) :: [(4, IOResult.eof)]) =
      ⟨3 + (runPump [(4, IOResult.eof)]).counted,
        (runPump [(4, IOResult.eof)]).sentErr,
        (runPump [(4, IOResult.eof)]).terminated⟩ ∧
    (copyConn [(4, IOResult.eof)]).dstClosed = true ∧
    (copyConn [(4, IOResult.eof)]).chanClosed = true :=
  ⟨(copyConn_iteration_behaviour.1 3 [(4, .eof)] 0).2.2.2.2.1 (by decide),
    (copyConn_iteration_behaviour.2.2 [(4, .eof)] (by decide)).1,
    (copyConn_iteration_behaviour.2.2 [(4, .eof)] (by decide)).2⟩

/-- C3: evaluation of the session's close-call counts at the failing exit
paths: when the PROXY header write fails, `serve` returns without launching
the pumps and neither socket is ever closed; a dial failure likewise leaves
the accepted front-end socket unclosed; and on the cancellation path each
socket receives two close calls (the driver's force-close plus the pump's
deferred close), while the normal pump-completion path closes each socket
exactly once. -/
theorem session_close_counts :
    frontCloseCount true .headerWriteFail = 0 ∧
    backCloseCount true .headerWriteFail = 0 ∧
    frontCloseCount true .dialFail = 0 ∧
    backCloseCount true .dialFail = 0 ∧
    frontCloseCount true .ctxCancelled = 2 ∧
    backCloseCount true .ctxCancelled = 2 ∧
    frontCloseCount true (.pumpInDone none) = 1 ∧
    backCloseCount true (.pumpInDone none) = 1 := by
  decide

/-- C5: `Close` cancels the base context and returns only once the live
counter of serve routines has reached zero, so no session outlives its
return; while any session is live, `Close` stays blocked in `Wait`; a
second `Close` on the resulting state returns immediately with the state
unchanged, and cancelling twice equals cancelling once. -/
theorem close_drains_and_idempotent :
    (∀ (s : DrainState) (k : Nat) (s' : DrainState), closeExec s k = some s' →
      s'.cancelled = true ∧ s'.live = 0 ∧ closeExec s' 0 = some s' ∧
      cancelCtx s' = s') ∧
    (∀ (s : DrainState) (k : Nat),
      (sessionDone^[k] (cancelCtx s)).live ≠ 0 → closeExec s k = none) ∧
    (∀ s : DrainState, cancelCtx (cancelCtx s) = cancelCtx s) := by
  have hcan : ∀ (k : Nat) (t : DrainState),
      (sessionDone^[k] t).cancelled = t.cancelled := by
    intro k
    induction k with
    | zero => intro t; rfl
    | succ m ih =>
      intro t
      rw [Function.iterate_succ_apply]
      exact ih (sessionDone t)
  refine ⟨fun s k s' h => ?_, fun s k h => ?_, fun s => rfl⟩
  · unfold closeExec at h
    by_cases hl : (sessionDone^[k] (cancelCtx s)).live = 0
    · simp only [hl, if_pos] at h
      obtain rfl : sessionDone^[k] (cancelCtx s) = s' := by
        simpa using h
      have hc : (sessionDone^[k] (cancelCtx s)).cancelled = true :=
        hcan k (cancelCtx s)
      have hfix0 : ∀ t : DrainState, t.cancelled = true → cancelCtx t = t := by
        intro t ht
        cases t with
        | mk c l =>
          have h' : c = true := ht
          subst h'
          rfl
      have hfix : cancelCtx (sessionDone^[k] (cancelCtx s)) =
          sessionDone^[k] (cancelCtx s) := hfix0 _ hc
      refine ⟨hc, hl, ?_, hfix⟩
      unfold closeExec
      rw [Function.iterate_zero_apply, hfix]
      simp [hl]
    · simp [hl] at h
  · unfold closeExec
    simp [h]

/-- Witness for C5: closing an instance with two live sessions, both of which
finish while `Close` waits, leaves a cancelled, fully drained state on which
a second `Close` returns at once. -/
theorem close_drains_witness :
    DrainState.cancelled ⟨true, 0⟩ = true ∧ DrainState.live ⟨true, 0⟩ = 0 ∧
    closeExec ⟨true, 0⟩ 0 = some ⟨true, 0⟩ ∧ cancelCtx ⟨true, 0⟩ = ⟨true, 0⟩ :=
  close_drains_and_idempotent.1 ⟨false, 2⟩ 2 ⟨true, 0⟩ (by decide)

/-- C6 counterexample: two `Proxy` calls on one freshly constructed instance
leave two statistics timer goroutines, not one — `startStatsTimer` sits
outside the `doOnce` body and runs on every call. -/
theorem statsTimer_not_one_shot :
    ¬ (proxyCallInit (proxyCallInit inertInst)).statsTasks = 1 := by
  decide

/-- C6 amended: the `doOnce` body (cancellation token, dialer, listener
configuration, buffer pool) runs exactly once however many times `Proxy` is
called, but each of the `n + 1` calls starts its own statistics timer task,
so the instance ends with `n + 1` statistics tasks. -/
theorem initOnce_statsTimer_per_call :
    ∀ n : Nat, proxyCallInit^[n + 1] inertInst = ⟨1, n + 1⟩ := by
  intro n
  induction n with
  | zero => rfl
  | succ m ih =>
    rw [Function.iterate_succ_apply', ih]
    rfl

/-- C8: the accept loop's error handling — a temporary network error is
logged, slept on for one second, and retried; an end-of-stream error makes
the loop return cleanly with no error surfaced; any other error is logged
and returned. -/
theorem acceptLoop_error_classification :
    (∀ e : AcceptError,
      (e.isNet = true → e.temporary = true →
        classifyAccept e = .logSleepRetry) ∧
      (¬(e.isNet = true ∧ e.temporary = true) → e.isEOF = true →
        classifyAccept e = .returnClean) ∧
      (¬(e.isNet = true ∧ e.temporary = true) → e.isEOF = false →
        classifyAccept e = .logReturnErr e)) ∧
    acceptRetrySleepSeconds = 1 := by
  refine ⟨fun e => ?_, rfl⟩
  obtain ⟨n, t, f, i⟩ := e
  cases n <;> cases t <;> cases f <;> simp [classifyAccept]

/-- Witness for C8 at concrete errors: a temporary network error retries, a
plain end-of-stream returns cleanly, and an ordinary error is returned. -/
theorem acceptLoop_error_classification_witness :
    classifyAccept ⟨true, true, false, 0⟩ = .logSleepRetry ∧
    classifyAccept ⟨false, false, true, 1⟩ = .returnClean ∧
    classifyAccept ⟨false, false, false, 2⟩ = .logReturnErr ⟨false, false, false, 2⟩ :=
  ⟨(acceptLoop_error_classification.1 ⟨true, true, false, 0⟩).1 rfl rfl,
    (acceptLoop_error_classification.1 ⟨false, false, true, 1⟩).2.1
      (by simp) rfl,
    (acceptLoop_error_classification.1 ⟨false, false, false, 2⟩).2.2
      (by simp) rfl⟩

/-- C9: the idle-deadline setter built from duration `d` and deadline
function `f` never calls `f` when `d ≤ 0`, and otherwise every invocation
sets the deadline to `now + d`; `serve` builds exactly two such setters,
both for the front-end socket — its read deadline from the client idle
timeout and its write deadline from the server idle timeout. -/
theorem idleDeadline_setters :
    (∀ d now : Int, d ≤ 0 → timeoutFunc d now = none) ∧
    (∀ d now : Int, 0 < d → timeoutFunc d now = some (now + d)) ∧
    (∀ ct st : Int,
      serveTimeoutSetters ct st = [(.frontRead, ct), (.frontWrite, st)] ∧
      (serveTimeoutSetters ct st).length = 2 ∧
      ∀ p ∈ serveTimeoutSetters ct st,
        p.1 = DeadlineTarget.frontRead ∨ p.1 = DeadlineTarget.frontWrite) := by
  refine ⟨fun d now h => ?_, fun d now h => ?_, fun ct st => ⟨rfl, rfl, ?_⟩⟩
  · have : d < 1 := by omega
    simp [timeoutFunc, this]
  · have : ¬ d < 1 := by omega
    simp [timeoutFunc, this]
  · intro p hp
    simp [serveTimeoutSetters] at hp
    rcases hp with h1 | h2
    · left; rw [h1]
    · right; rw [h2]

/-- Witness for C9 at concrete durations: a disabled (zero) duration is a
no-op and a positive one arms `now + d`. -/
theorem idleDeadline_setters_witness :
    timeoutFunc 0 100 = none ∧ timeoutFunc 5 100 = some 105 :=
  ⟨idleDeadline_setters.1 0 100 (by decide),
    (idleDeadline_setters.2.1 5 100 (by decide)).trans (by decide)⟩

/-- C10: calling `Close` on a constructed-inert instance invokes the nil
`cancel` function and panics instead of returning; once the `doOnce` body
has assigned the cancellation token, `Close` proceeds normally. -/
theorem close_before_init_panics :
    closeRaw inertProxy =
      .error "runtime error: invalid memory address or nil pointer dereference" ∧
    (∀ p : RawTCPProxy, closeRaw (initAssign p) = .ok ()) :=
  ⟨rfl, fun _ => rfl⟩

/-- Positivity of the `uint64` modulus. -/
lemma u64Mod_pos : 0 < u64Mod := by
  norm_num [u64Mod]

/-- The first `n` bytes of a list are all zero exactly when every index below
`n` reads zero (with zero default past the end). -/
lemma isZeros_take_iff (ip : List Nat) :
    ∀ n : Nat, (isZeros (ip.take n) = true) ↔ ∀ i, i < n → ip.getD i 0 = 0 := by
  induction ip with
  | nil =>
    intro n
    simp [isZeros, List.getD_nil]
  | cons x xs ih =>
    intro n
    cases n with
    | zero => simp [isZeros]
    | succ m =>
      rw [List.take_succ_cons]
      simp only [isZeros, List.all_cons, Bool.and_eq_true, beq_iff_eq]
      constructor
      · rintro ⟨hx, hall⟩ i hi
        cases i with
        | zero => simpa [List.getD_cons_zero] using hx
        | succ j =>
          have hj : j < m := Nat.succ_lt_succ_iff.mp hi
          have := (ih m).mp hall j hj
          simpa [List.getD_cons_succ] using this
      · intro h
        refine ⟨?_, (ih m).mpr fun j hj => ?_⟩
        · simpa [List.getD_cons_zero] using h 0 (Nat.succ_pos m)
        · simpa [List.getD_cons_succ] using h (j + 1) (Nat.succ_lt_succ hj)

/-- C1 counterexample: for an IPv4 loopback client at port 45000 connecting
to front-end listen port 8080 proxied to back-end port 9090, the header the
code builds is not the claimed `PROXY TCP4 127.0.0.1 127.0.0.1 45000 8080`
line — the final field is the back-end remote port 9090, not the front-end
listen port 8080. -/
theorem proxyHeader_dstPort_claim_false :
    buildProxyHeader (loopbackSession 45000 8080 9090) ≠
      "PROXY TCP4 127.0.0.1 127.0.0.1 45000 8080\r\n" ∧
    buildProxyHeader (loopbackSession 45000 8080 9090) =
      "PROXY TCP4 127.0.0.1 127.0.0.1 45000 9090\r\n" := by
  constructor <;> decide

/-- C1 amended: the single line written to the back-end socket before any
forwarded data is `PROXY <PROTO> <SRC_IP> <DST_IP> <SRC_PORT> <DST_PORT>`
with CRLF, where the destination fields are the BACK-END connection's remote
address — for an IPv4 loopback client at port `A` connecting to front-end
port `B` proxied to back-end port `C` the line is
`PROXY TCP4 127.0.0.1 127.0.0.1 A C` (destination port = back-end port `C`);
the protocol is `TCP4` exactly when the front-side peer IP is 4 bytes, or 16
bytes with the first 10 zero and bytes 10–11 equal to 0xFF, and `TCP6`
otherwise; the header is the only prelude when proxy-protocol is enabled and
there is none otherwise. -/
theorem proxyHeader_amended :
    (∀ A B C : Nat, buildProxyHeader (loopbackSession A B C) =
      "PROXY TCP4 127.0.0.1 127.0.0.1 " ++ Nat.repr A ++ " " ++ Nat.repr C
        ++ "\r\n") ∧
    (∀ ip : List Nat, isIPv4 ip = true ↔
      (ip.length = 4 ∨ (ip.length = 16 ∧ (∀ i, i < 10 → ip.getD i 0 = 0) ∧
        ip.getD 10 0 = 255 ∧ ip.getD 11 0 = 255))) ∧
    (∀ s : SessionAddrs, backendPrelude true s = [buildProxyHeader s] ∧
      backendPrelude false s = []) := by
  refine ⟨fun A B C => ?_, fun ip => ?_, fun s => ⟨rfl, rfl⟩⟩
  · have h : ∀ x y : String,
        "PROXY " ++ (if isIPv4 [127, 0, 0, 1] then "TCP4 " else "TCP6 ")
          ++ ip4String 127 0 0 1 ++ " " ++ ip4String 127 0 0 1 ++ " "
          ++ x ++ " " ++ y ++ "\r\n" =
        "PROXY TCP4 127.0.0.1 127.0.0.1 " ++ x ++ " " ++ y ++ "\r\n" := by
      intro x y
      rw [show ("PROXY " ++ (if isIPv4 [127, 0, 0, 1] then "TCP4 " else "TCP6 ")
          ++ ip4String 127 0 0 1 ++ " " ++ ip4String 127 0 0 1 ++ " ")
        = "PROXY TCP4 127.0.0.1 127.0.0.1 " from by decide]
    exact h (Nat.repr A) (Nat.repr C)
  · simp only [isIPv4, Bool.or_eq_true, Bool.and_eq_true, beq_iff_eq,
      isZeros_take_iff]
    tauto

/-- C4 helper: the signed `open` counter after a trace is the number of
increments minus the number of decrements. -/
lemma openAfter_count :
    ∀ tr : List SessEvent,
      openAfter tr = ((started tr).length : Int) - ((finished tr).length : Int)
  | [] => by simp [openAfter, started, finished]
  | e :: tr => by
    have ih := openAfter_count tr
    cases e with
    | start s =>
      simp only [openAfter, List.map_cons, List.sum_cons, openDelta, started,
        finished, List.filterMap_cons, List.length_cons] at ih ⊢
      omega
    | finish s =>
      simp only [openAfter, List.map_cons, List.sum_cons, openDelta, started,
        finished, List.filterMap_cons, List.length_cons] at ih ⊢
      omega

/-- C4 helper: counting the elements of a duplicate-free list that avoid a
duplicate-free sublist of it. -/
lemma nodup_filter_not_mem_length {S F : List Nat} (hS : S.Nodup)
    (hF : F.Nodup) (hsub : ∀ s ∈ F, s ∈ S) :
    (S.filter fun s => decide (s ∉ F)).length = S.length - F.length ∧
    F.length ≤ S.length := by
  classical
  have hfs : (S.filter fun s => decide (s ∉ F)).toFinset =
      S.toFinset \ F.toFinset := by
    rw [List.toFinset_filter]
    ext a
    simp [Finset.mem_filter, Finset.mem_sdiff, List.mem_toFinset]
  have hnd : (S.filter fun s => decide (s ∉ F)).Nodup := hS.filter _
  have h1 := List.toFinset_card_of_nodup hnd
  rw [hfs] at h1
  have hsub' : F.toFinset ⊆ S.toFinset := by
    intro a ha
    rw [List.mem_toFinset] at ha ⊢
    exact hsub a ha
  have h2 : (S.toFinset \ F.toFinset).card = S.toFinset.card - F.toFinset.card :=
    Finset.card_sdiff hsub'
  have h3 := Finset.card_le_card hsub'
  rw [List.toFinset_card_of_nodup hS, List.toFinset_card_of_nodup hF] at h2 h3
  omega

/-- C4 helper: well-formedness facts transfer to every prefix of a trace. -/
lemma wf_parts {tr pre : List SessEvent} (h : WFTrace tr) (hp : pre <+: tr) :
    (started pre).Nodup ∧ (finished pre).Nodup ∧
    ∀ s ∈ finished pre, s ∈ started pre := by
  have hsubS : List.Sublist (started pre) (started tr) := hp.sublist.filterMap _
  have hsubF : List.Sublist (finished pre) (finished tr) := hp.sublist.filterMap _
  exact ⟨h.nodupS.sublist hsubS, h.nodupF.sublist hsubF, h.prec pre hp⟩

/-- C4: every exit path of `serve` — dial failure, header-write failure,
either pump completing, cancellation, even a panic — performs exactly one
decrement of `open` and one barrier release; the accept loop performs
exactly one increment per accepted session; and along every well-formed
trace of session lifecycles the `open` counter is never negative and always
equals the number of sessions incremented but not yet decremented. -/
theorem open_counter_invariant :
    (∀ (pp : Bool) (x : ServeExit),
      (serveEvents pp x).count SEvent.decOpen = 1 ∧
      (serveEvents pp x).count SEvent.wgDone = 1) ∧
    (acceptSuccessEffects.count AcceptEffect.incOpen = 1 ∧
      acceptSuccessEffects.count AcceptEffect.wgAdd = 1) ∧
    (∀ tr : List SessEvent, WFTrace tr → ∀ pre, pre <+: tr →
      0 ≤ openAfter pre ∧ openAfter pre = (numOpen pre : Int)) := by
  refine ⟨fun pp x => ?_, by decide, fun tr h pre hp => ?_⟩
  · rcases x with _ | _ | e | e | _ | _ <;> try cases e
    all_goals cases pp <;> exact ⟨rfl, rfl⟩
  · obtain ⟨hS, hF, hsub⟩ := wf_parts h hp
    have hcount := openAfter_count pre
    obtain ⟨hlen, hle⟩ := nodup_filter_not_mem_length hS hF hsub
    unfold numOpen
    constructor <;> omega

/-- C4 helper for the witness: a trace of one session starting then
finishing is well-formed. -/
lemma wfTrace_pair (a : Nat) :
    WFTrace [SessEvent.start a, SessEvent.finish a] := by
  refine ⟨by simp [started], by simp [finished], ?_⟩
  intro pre hp s hs
  obtain ⟨t, ht⟩ := hp
  rcases pre with _ | ⟨e1, _ | ⟨e2, rest⟩⟩
  · simp [finished] at hs
  · simp only [List.cons_append, List.nil_append, List.cons.injEq] at ht
    obtain ⟨rfl, -⟩ := ht
    simp [finished] at hs
  · simp only [List.cons_append, List.cons.injEq] at ht
    obtain ⟨rfl, rfl, hrt⟩ := ht
    obtain ⟨rfl, -⟩ := List.append_eq_nil.mp hrt
    simp [finished] at hs
    simp [started, hs]

/-- Witness for C4: the invariant evaluated on the concrete trace of one
session that starts and finishes. -/
theorem open_counter_invariant_witness :
    0 ≤ openAfter [SessEvent.start 0, SessEvent.finish 0] ∧
    openAfter [SessEvent.start 0, SessEvent.finish 0] =
      (numOpen [SessEvent.start 0, SessEvent.finish 0] : Int) :=
  open_counter_invariant.2.2 _ (wfTrace_pair 0) _ (List.prefix_refl _)

/-- C7 helper: effect of a front→back pump run on both counters. -/
lemma pumpStats_true_spec :
    ∀ (tr : List (Nat × IOResult)) (s : Stats), s.bytesIn < u64Mod →
      (pumpStats true tr s).bytesIn =
        (s.bytesIn + (runPump tr).counted) % u64Mod ∧
      (pumpStats true tr s).bytesOut = s.bytesOut := by
  intro tr
  induction tr with
  | nil =>
    intro s h
    simp [pumpStats, runPump, Nat.mod_eq_of_lt h]
  | cons p rest ih =>
    intro s h
    obtain ⟨n, r⟩ := p
    cases r with
    | success => simp [pumpStats, runPump, addDir, addBytesIn]
    | eof => simp [pumpStats, runPump, addDir, addBytesIn]
    | connClosed => simp [pumpStats, runPump, addDir, addBytesIn]
    | timeout =>
      by_cases hn : n < 1
      · simp [pumpStats, runPump, hn, Nat.mod_eq_of_lt h]
      · have hlt : (addDir true s n).bytesIn < u64Mod := by
          simp only [addDir, if_pos, addBytesIn]
          exact Nat.mod_lt _ u64Mod_pos
        have ihh := ih (addDir true s n) hlt
        simp only [pumpStats, runPump, hn, if_false, ite_false]
        refine ⟨?_, ?_⟩
        · rw [ihh.1]
          simp [addDir, addBytesIn, Nat.mod_add_mod, Nat.add_assoc]
        · rw [ihh.2]
          simp [addDir, addBytesIn]
    | failure e => simp [pumpStats, runPump, Nat.mod_eq_of_lt h]

/-- C7 helper: effect of a back→front pump run on both counters. -/
lemma pumpStats_false_spec :
    ∀ (tr : List (Nat × IOResult)) (s : Stats), s.bytesOut < u64Mod →
      (pumpStats false tr s).bytesOut =
        (s.bytesOut + (runPump tr).counted) % u64Mod ∧
      (pumpStats false tr s).bytesIn = s.bytesIn := by
  intro tr
  induction tr with
  | nil =>
    intro s h
    simp [pumpStats, runPump, Nat.mod_eq_of_lt h]
  | cons p rest ih =>
    intro s h
    obtain ⟨n, r⟩ := p
    cases r with
    | success => simp [pumpStats, runPump, addDir, addBytesOut]
    | eof => simp [pumpStats, runPump, addDir, addBytesOut]
    | connClosed => simp [pumpStats, runPump, addDir, addBytesOut]
    | timeout =>
      by_cases hn : n < 1
      · simp [pumpStats, runPump, hn, Nat.mod_eq_of_lt h]
      · have hlt : (addDir false s n).bytesOut < u64Mod := by
          simp only [addDir, if_neg, addBytesOut]
          exact Nat.mod_lt _ u64Mod_pos
        have ihh := ih (addDir false s n) hlt
        simp only [pumpStats, runPump, hn, if_false, ite_false]
        refine ⟨?_, ?_⟩
        · rw [ihh.1]
          simp [addDir, addBytesOut, Nat.mod_add_mod, Nat.add_assoc]
        · rw [ihh.2]
          simp [addDir, addBytesOut]
    | failure e => simp [pumpStats, runPump, Nat.mod_eq_of_lt h]

/-- C7 helper: the pump records at most the bytes that actually crossed it. -/
lemma counted_le_crossed :
    ∀ tr : List (Nat × IOResult), (runPump tr).counted ≤ crossedBytes tr
  | [] => by simp [runPump, crossedBytes]
  | (n, r) :: rest => by
    cases r with
    | success => simp [runPump, crossedBytes]
    | eof => simp [runPump, crossedBytes]
    | connClosed => simp [runPump, crossedBytes]
    | timeout =>
      by_cases hn : n < 1
      · simp [runPump, crossedBytes, hn]
      · have := counted_le_crossed rest
        simp only [runPump, crossedBytes, hn, if_false, ite_false]
        omega
    | failure e => simp [runPump, crossedBytes]

/-- C7 counterexample: a front→back iteration that transfers 5 bytes and
then fails with a non-timeout error moves 5 bytes across the pump but adds
nothing to `bytesIn` — the counter does not count every byte that crossed. -/
theorem bytesIn_misses_error_bytes :
    (pumpStats true [(5, IOResult.failure 7)] ⟨0, 0⟩).bytesIn ≠
      crossedBytes [(5, IOResult.failure 7)] := by
  decide

/-- C7 amended: `bytesIn` accumulates (modulo 2^64) exactly the byte counts
the front→back pump records and `bytesOut` those of the back→front pump,
each pump leaving the opposite counter untouched; the recorded count omits
the bytes of an iteration that ends in a non-timeout, non-clean error, so it
is only a lower bound on the bytes that crossed; and absent 64-bit
wraparound both counters are monotonically non-decreasing. -/
theorem bytesCount_amended :
    ∀ (tr : List (Nat × IOResult)) (s : Stats),
      s.bytesIn < u64Mod → s.bytesOut < u64Mod →
      ((pumpStats true tr s).bytesIn =
          (s.bytesIn + (runPump tr).counted) % u64Mod ∧
        (pumpStats true tr s).bytesOut = s.bytesOut ∧
        (pumpStats false tr s).bytesOut =
          (s.bytesOut + (runPump tr).counted) % u64Mod ∧
        (pumpStats false tr s).bytesIn = s.bytesIn ∧
        (runPump tr).counted ≤ crossedBytes tr ∧
        (s.bytesIn + (runPump tr).counted < u64Mod →
          s.bytesIn ≤ (pumpStats true tr s).bytesIn) ∧
        (s.bytesOut + (runPump tr).counted < u64Mod →
          s.bytesOut ≤ (pumpStats false tr s).bytesOut)) := by
  intro tr s hin hout
  have ht := pumpStats_true_spec tr s hin
  have hf := pumpStats_false_spec tr s hout
  refine ⟨ht.1, ht.2, hf.1, hf.2, counted_le_crossed tr, ?_, ?_⟩
  · intro hlt
    rw [ht.1, Nat.mod_eq_of_lt hlt]
    omega
  · intro hlt
    rw [hf.1, Nat.mod_eq_of_lt hlt]
    omega

/-- Witness for C7 at a concrete trace and counter state. -/
theorem bytesCount_amended_witness :
    (pumpStats true [(2, IOResult.timeout), (3, IOResult.eof)] ⟨0, 0⟩).bytesIn =
      ((Stats.mk 0 0).bytesIn +
        (runPump [(2, IOResult.timeout), (3, IOResult.eof)]).counted) % u64Mod :=
  (bytesCount_amended [(2, IOResult.timeout), (3, IOResult.eof)] ⟨0, 0⟩
    u64Mod_pos u64Mod_pos).1

end Tcpee
